import Mathlib

/-!
Verification of the Chadorkart sales/inventory data pipeline.

The pipeline (function process_data of app.py together with the aggregations
built on its output) normalises a raw sales ledger into canonical rows and
derives KPI, reconciliation and pivot views.  Python strings are modelled as
lists of characters; a table cell that may be missing (pandas NaN) is an
Option, and the two pandas coercions with errors="coerce" (to_datetime,
to_numeric) are modelled by carrying the parse result of the cell as an
Option in the raw row.
-/

namespace Chadorkart

/-- Python strings are modelled as lists of characters. -/
abbrev PyStr := List Char

/-- Whitespace stripped by Python str.strip (ASCII fragment). -/
def isWS (c : Char) : Bool := c = ' ' || c = '\t' || c = '\n' || c = '\r'

/-- Python str.strip: remove leading and trailing whitespace. -/
def strip (s : PyStr) : PyStr :=
  ((s.dropWhile isWS).reverse.dropWhile isWS).reverse

/-- Python str.upper on the ASCII fragment: uppercase every character. -/
def upperL (s : PyStr) : PyStr := s.map Char.toUpper

/-- pandas astype(str) on a cell: a missing value (NaN) prints as "nan". -/
def cellStr : Option PyStr → PyStr
  | none => ['n', 'a', 'n']
  | some s => s

/-- str.replace of the vertical bar by a comma (line 43 of app.py). -/
def replaceBar (s : PyStr) : PyStr := s.map (fun c => if c = '|' then ',' else c)

/-- Python str.split on a one-character separator: the result always has at
least one piece, and an empty input yields one empty piece. -/
def splitOnChar (sep : Char) : PyStr → List PyStr
  | [] => [[]]
  | c :: rest =>
    if c = sep then
      [] :: splitOnChar sep rest
    else
      match splitOnChar sep rest with
      | [] => [[c]]
      | t :: ts => (c :: t) :: ts

/-- leadMatch p s: does the string s start with the pattern p
(Python str.startswith). -/
def leadMatch : PyStr → PyStr → Bool
  | [], _ => true
  | _ :: _, [] => false
  | a :: p, b :: s => a = b && leadMatch p s

/-- containsSub s p: does p occur as a contiguous substring of s
(the Python expression p in s). -/
def containsSub : PyStr → PyStr → Bool
  | [], p => p.isEmpty
  | c :: rest, p => leadMatch p (c :: rest) || containsSub rest p

/-- The literal prefix tested by is_corrupted_sku. -/
def vofChars : PyStr := ['v', 'o', 'f', '-']

/-- is_corrupted_sku of app.py line 47: the token starts with "vof-", or has
more than one hyphen, or is longer than 20 characters. -/
def isCorrupted (sku : PyStr) : Bool :=
  leadMatch vofChars sku || decide (1 < sku.count '-') || decide (20 < sku.length)

/-- A parsed timestamp: calendar day plus time of day, as produced by
pd.to_datetime on a parseable cell. -/
structure DateTime where
  day : Nat
  tod : Nat
deriving DecidableEq, Repr

/-- One raw sales-ledger row after CSV ingestion.  Cells that may be missing
are Options; createdAt is the result of pd.to_datetime(errors="coerce") on
the "Uniware Created At" cell (line 40), and orderPrice the result of
pd.to_numeric(errors="coerce") on the "Order Price" cell (line 77) — none
means the cell was missing or unparseable. -/
structure RawSalesRow where
  orderId : PyStr
  sellerSkus : Option PyStr
  products : Option PyStr
  status : Option PyStr
  channel : Option PyStr
  createdAt : Option DateTime
  orderPrice : Option ℚ
deriving DecidableEq, Repr

/-- A canonical sales row: one row per (order, SKU token) after explode,
SKU resolution and status normalisation (lines 43-60 of app.py). -/
structure CanonRow where
  orderId : PyStr
  finalSku : PyStr
  statusU : PyStr
  channel : Option PyStr
  createdAt : Option DateTime
  price : Option ℚ
deriving DecidableEq, Repr

/-- Build the canonical row for one raw token t of row r: the token is
stripped (line 45), tested by is_corrupted_sku, replaced by the Products
cell when corrupted (lines 51-54), stringified and stripped again (line 55);
the status is stringified and uppercased (line 60). -/
def mkCanon (r : RawSalesRow) (t : PyStr) : CanonRow :=
  { orderId := r.orderId
    finalSku := strip (if isCorrupted (strip t) then cellStr r.products else strip t)
    statusU := upperL (cellStr r.status)
    channel := r.channel
    createdAt := r.createdAt
    price := r.orderPrice }

/-- Multi-SKU expansion of one raw row (lines 43-44): stringify the SKU cell,
turn bars into commas, split on commas, and emit one canonical row per
token. -/
def expandRow (r : RawSalesRow) : List CanonRow :=
  (splitOnChar ',' (replaceBar (cellStr r.sellerSkus))).map (mkCanon r)

/-- The full normalisation pipeline on the sales table: expand every row and
drop rows whose resolved finalSku is empty (line 56). -/
def processData (sales : List RawSalesRow) : List CanonRow :=
  ((sales.map expandRow).flatten).filter (fun c => !c.finalSku.isEmpty)

/-- The cancellation marker searched for in the uppercased status. -/
def cancelChars : PyStr := ['C', 'A', 'N', 'C', 'E', 'L']

/-- Order classification (lines 75-76): a canonical row is cancelled when its
uppercased status contains "CANCEL". -/
def isCancelled (c : CanonRow) : Bool := containsSub c.statusU cancelChars

/-- cancelled_orders (line 75). -/
def cancelledRows (rows : List CanonRow) : List CanonRow :=
  rows.filter (fun c => isCancelled c)

/-- completed_sales (line 76). -/
def completedRows (rows : List CanonRow) : List CanonRow :=
  rows.filter (fun c => !isCancelled c)

/-- Effective order price after to_numeric(...).fillna(0) (line 77): a
missing or unparseable amount becomes 0. -/
def effPrice (c : CanonRow) : ℚ := c.price.getD 0

/-- Units sold KPI (line 87): the number of completed canonical rows. -/
def completedUnits (rows : List CanonRow) : Nat := (completedRows rows).length

/-- Net revenue KPI (line 88): sum of effective prices over completed rows. -/
def completedRevenue (rows : List CanonRow) : ℚ :=
  ((completedRows rows).map effPrice).sum

/-- Distinct order identifiers among completed rows (line 214). -/
def uniqueOrders (rows : List CanonRow) : Nat :=
  ((completedRows rows).map (fun c => c.orderId)).dedup.length

/-- Average order value (line 215): revenue over distinct completed orders,
0 when there is no completed order. -/
def aov (rows : List CanonRow) : ℚ :=
  if 0 < uniqueOrders rows then completedRevenue rows / (uniqueOrders rows : ℚ) else 0

/-- The distinct finalSku values of a row set, i.e. the keys of a
groupby("Final SKU") (line 96). -/
def skuKeys (rows : List CanonRow) : List PyStr :=
  (rows.map (fun c => c.finalSku)).dedup

/-- The group size of one finalSku under groupby("Final SKU").size(). -/
def unitsSold (rows : List CanonRow) (s : PyStr) : Nat :=
  rows.countP (fun c => decide (c.finalSku = s))

/-- Revenue summed per finalSku group (lines 153-156 and 251-254). -/
def skuRevenue (rows : List CanonRow) (s : PyStr) : ℚ :=
  ((rows.filter (fun c => decide (c.finalSku = s))).map effPrice).sum

/-- One row of the merged demand/inventory table of line 100. -/
structure ReconRow where
  sku : PyStr
  sold : Int
  atp : Int
deriving DecidableEq, Repr

/-- The Available (ATP) figure of a SKU in the inventory table, 0 when the
SKU is absent (the fillna(0) after the outer merge, line 100). -/
def lookupATP (inv : List (PyStr × Int)) (s : PyStr) : Int :=
  match inv.find? (fun p => decide (p.1 = s)) with
  | none => 0
  | some p => p.2

/-- The outer merge of line 100: one row per demand SKU (with its inventory
figure, 0 when absent), plus one row per inventory record whose SKU carries
no completed demand (with Total Sold filled to 0).  comp is the completed
canonical row set; the inventory table is keyed one record per SKU. -/
def reconTable (comp : List CanonRow) (inv : List (PyStr × Int)) : List ReconRow :=
  (skuKeys comp).map (fun s => ⟨s, (unitsSold comp s : Int), lookupATP inv s⟩)
    ++ (inv.filter (fun p => !decide (p.1 ∈ skuKeys comp))).map (fun p => ⟨p.1, 0, p.2⟩)

/-- Stock To Order (line 101): demand minus stock, clipped at 0. -/
def stockToOrder (r : ReconRow) : Int := max 0 (r.sold - r.atp)

/-- Dead stock (line 109): merged rows with no sales and positive stock. -/
def deadStock (comp : List CanonRow) (inv : List (PyStr × Int)) : List ReconRow :=
  (reconTable comp inv).filter (fun r => decide (r.sold = 0) && decide (0 < r.atp))

/-- Order Date of a canonical row (line 196): the calendar-day part of the
parsed timestamp; null (none) when the timestamp did not parse. -/
def orderDate (c : CanonRow) : Option Nat := c.createdAt.map (fun d => d.day)

/-- The keys of a groupby("Order Date"): pandas drops null group keys, so
only parsed dates appear. -/
def dailyKeys (rows : List CanonRow) : List Nat :=
  (rows.filterMap orderDate).dedup

/-- Daily trend, unit metric (line 200): group size per observed date. -/
def dailyUnits (rows : List CanonRow) : List (Nat × Nat) :=
  (dailyKeys rows).map (fun d => (d, rows.countP (fun c => decide (orderDate c = some d))))

/-- Daily trend, revenue metric (line 202): price sum per observed date. -/
def dailyRevenue (rows : List CanonRow) : List (Nat × ℚ) :=
  (dailyKeys rows).map
    (fun d => (d, ((rows.filter (fun c => decide (orderDate c = some d))).map effPrice).sum))

/-- The keys of a groupby("Channel") (lines 122, 175): pandas drops rows
whose channel cell is missing. -/
def channelKeys (rows : List CanonRow) : List PyStr :=
  (rows.filterMap (fun c => c.channel)).dedup

/-- The group size of one channel under groupby("Channel").size(). -/
def channelCount (rows : List CanonRow) (ch : PyStr) : Nat :=
  rows.countP (fun c => decide (c.channel = some ch))

/-- Channel mix (line 122): group size per observed channel. -/
def channelUnits (rows : List CanonRow) : List (PyStr × Nat) :=
  (channelKeys rows).map (fun ch => (ch, channelCount rows ch))

/-- Rows surviving the two-key grouping of the date × channel pivot of
line 227: pandas drops a row when either group key is missing. -/
def dcRows (rows : List CanonRow) : List CanonRow :=
  rows.filter (fun c => (orderDate c).isSome && c.channel.isSome)

/-- Daily × channel matrix (line 227): for each observed date, the unit
count per observed channel, absent combinations filled with 0. -/
def dailyChannelMatrix (rows : List CanonRow) : List (Nat × List (PyStr × Nat)) :=
  ((dcRows rows).filterMap orderDate).dedup.map
    (fun d => (d, ((dcRows rows).filterMap (fun c => c.channel)).dedup.map
      (fun ch => (ch, rows.countP
        (fun c => decide (orderDate c = some d) && decide (c.channel = some ch))))))

/-- Cancelled rows surviving the grouping of the cancellation pivot of
line 180: pandas drops rows whose Channel key is missing (Final SKU is a
string and never missing). -/
def pivotRows (rows : List CanonRow) : List CanonRow :=
  (cancelledRows rows).filter (fun c => c.channel.isSome)

/-- Index keys of the cancellation pivot: finalSku values observed among the
surviving cancelled rows. -/
def cancelSkuKeys (rows : List CanonRow) : List PyStr :=
  ((pivotRows rows).map (fun c => c.finalSku)).dedup

/-- Column keys of the cancellation pivot: channels observed among the
surviving cancelled rows. -/
def cancelChKeys (rows : List CanonRow) : List PyStr :=
  ((pivotRows rows).filterMap (fun c => c.channel)).dedup

/-- One cell of the cancellation pivot (line 180): the number of cancelled
rows with the given finalSku and channel. -/
def cancelPivotCell (rows : List CanonRow) (s ch : PyStr) : Nat :=
  (cancelledRows rows).countP
    (fun c => decide (c.finalSku = s) && decide (c.channel = some ch))

/-- The sum of all cells of the cancellation pivot. -/
def cancelPivotSum (rows : List CanonRow) : Nat :=
  ((cancelSkuKeys rows).map
    (fun s => ((cancelChKeys rows).map (fun ch => cancelPivotCell rows s ch)).sum)).sum

/-- Sample rows used to instantiate theorems with hypotheses. -/
def sampleRaw : RawSalesRow :=
  { orderId := ['1'], sellerSkus := some ['a'], products := some [' ', 'W', ' '],
    status := some ['S'], channel := some ['A'], createdAt := none, orderPrice := none }

/-- A canonical row carrying a cancellation marker. -/
def sampleCancelled : CanonRow :=
  { orderId := ['1'], finalSku := ['a'], statusU := ['C','A','N','C','E','L','L','E','D'],
    channel := some ['A'], createdAt := none, price := none }

/-- A completed canonical row with a parsed price and timestamp. -/
def sampleCompleted : CanonRow :=
  { orderId := ['1'], finalSku := ['a'], statusU := ['S','H','I','P','P','E','D'],
    channel := some ['A'], createdAt := some ⟨1, 0⟩, price := some 5 }

/-- A raw row whose SKU cell is a lone blank: its only token strips to the
empty string, so the resolved finalSku is empty and the row is dropped. -/
def blankSkuRow : RawSalesRow :=
  { orderId := ['2'], sellerSkus := some [' '], products := some ['P'],
    status := some ['X'], channel := some ['A'], createdAt := none, orderPrice := none }

/-- Python str.split on a one-character separator never returns an empty
list of pieces. -/
theorem splitOnChar_length_pos (sep : Char) (s : PyStr) :
    0 < (splitOnChar sep s).length := by
  induction s with
  | nil => simp [splitOnChar]
  | cons c rest ih =>
    simp only [splitOnChar]
    split
    · simp
    · split
      · simp
      · simp

/-- Stripping is idempotent. -/
theorem strip_idem (s : PyStr) : strip (strip s) = strip s := by
  have hdef : ∀ l : PyStr, strip l = List.rdropWhile isWS (l.dropWhile isWS) := fun l => rfl
  have hz : (strip s).dropWhile isWS = strip s := by
    rw [List.dropWhile_eq_self_iff]
    intro hl
    have hpre : strip s <+: s.dropWhile isWS := by
      rw [hdef]
      exact List.rdropWhile_prefix _ _
    have hly : 0 < (s.dropWhile isWS).length := lt_of_lt_of_le hl hpre.length_le
    have hget : (s.dropWhile isWS).get ⟨0, hly⟩ = (strip s).get ⟨0, hl⟩ := by
      simpa using (List.IsPrefix.getElem hpre hl).symm
    have hnot := List.dropWhile_get_zero_not (p := isWS) s hly
    rw [hget] at hnot
    simpa using hnot
  rw [hdef (strip s), hz, hdef s, List.rdropWhile_idempotent]

/-- C1: for every canonical sales row built from a raw row and a SKU token,
if the trimmed token starts with "vof-", or has more than one hyphen, or is
longer than 20 characters, the resolved finalSku is the trimmed product
display name; otherwise it is the trimmed token itself, and in particular a
token with exactly one hyphen, length at most 20 and no "vof-" prefix is
never replaced by the product name. -/
theorem sku_resolution_c1 (r : RawSalesRow) (t : PyStr) :
    ((leadMatch vofChars (strip t) || decide (1 < (strip t).count '-')
        || decide (20 < (strip t).length)) = true →
      (mkCanon r t).finalSku = strip (cellStr r.products)) ∧
    ((leadMatch vofChars (strip t) || decide (1 < (strip t).count '-')
        || decide (20 < (strip t).length)) = false →
      (mkCanon r t).finalSku = strip t) ∧
    ((strip t).count '-' = 1 → (strip t).length ≤ 20 →
      leadMatch vofChars (strip t) = false → (mkCanon r t).finalSku = strip t) := by
  have hcor : isCorrupted (strip t) = (leadMatch vofChars (strip t)
      || decide (1 < (strip t).count '-') || decide (20 < (strip t).length)) := rfl
  refine ⟨fun h => ?_, fun h => ?_, fun h1 h2 h3 => ?_⟩
  · have hb : isCorrupted (strip t) = true := by rw [hcor, h]
    simp [mkCanon, hb]
  · have hb : isCorrupted (strip t) = false := by rw [hcor, h]
    simp [mkCanon, hb, strip_idem]
  · have hb : isCorrupted (strip t) = false := by
      rw [hcor, h1, h3]
      simp [Nat.not_lt.mpr h2]
    simp [mkCanon, hb, strip_idem]

/-- Witness for C1 at concrete inputs: a two-hyphen token resolves to the
product name; a one-hyphen short token stays itself. -/
theorem sku_resolution_c1_witness :
    (mkCanon sampleRaw ['a', '-', 'b', '-', 'c']).finalSku = strip (cellStr sampleRaw.products) ∧
    (mkCanon sampleRaw ['a', '-', 'b']).finalSku = strip ['a', '-', 'b'] :=
  ⟨(sku_resolution_c1 sampleRaw ['a', '-', 'b', '-', 'c']).1 (by decide),
   (sku_resolution_c1 sampleRaw ['a', '-', 'b']).2.2 (by decide) (by decide) (by decide)⟩

/-- C2: classification is by the "CANCEL" substring of the uppercased
status, and Cancelled/Completed is a partition of the canonical rows: the
lengths add up and every row lands in exactly one side. -/
theorem classifier_partition_c2 (rows : List CanonRow) :
    (∀ c, c ∈ cancelledRows rows ↔ c ∈ rows ∧ containsSub c.statusU cancelChars = true) ∧
    (cancelledRows rows).length + (completedRows rows).length = rows.length ∧
    (∀ c ∈ rows, (c ∈ cancelledRows rows ∧ c ∉ completedRows rows) ∨
      (c ∈ completedRows rows ∧ c ∉ cancelledRows rows)) := by
  refine ⟨fun c => ?_, ?_, fun c hc => ?_⟩
  · simp [cancelledRows, List.mem_filter, isCancelled]
  · induction rows with
    | nil => rfl
    | cons c cs ih =>
      by_cases h : isCancelled c <;>
        simp [cancelledRows, completedRows, List.filter_cons, h] at ih ⊢ <;> omega
  · by_cases h : isCancelled c
    · exact Or.inl ⟨List.mem_filter.mpr ⟨hc, h⟩,
        fun hmem => by simpa [h] using (List.mem_filter.mp hmem).2⟩
    · exact Or.inr ⟨List.mem_filter.mpr ⟨hc, by simpa using h⟩,
        fun hmem => h ((List.mem_filter.mp hmem).2)⟩

/-- Witness for C2 at a concrete row: a cancelled row is in exactly the
cancelled side. -/
theorem classifier_partition_c2_witness :
    (sampleCancelled ∈ cancelledRows [sampleCancelled] ∧
      sampleCancelled ∉ completedRows [sampleCancelled]) ∨
    (sampleCancelled ∈ completedRows [sampleCancelled] ∧
      sampleCancelled ∉ cancelledRows [sampleCancelled]) :=
  (classifier_partition_c2 [sampleCancelled]).2.2 sampleCancelled (List.mem_singleton.mpr rfl)

/-- C3 fails on the code: a raw row whose SKU cell is a single blank
produces one token that strips to the empty string, so its canonical row is
dropped and the pipeline returns fewer canonical rows than raw rows. -/
theorem expansion_count_c3_counterexample :
    ¬ (([blankSkuRow] : List RawSalesRow).length ≤ (processData [blankSkuRow]).length) := by
  decide

/-- C3 amended: before the empty-finalSku drop, multi-SKU expansion yields
at least one canonical row per raw row, so the expanded (undropped) row
count is at least the raw row count. -/
theorem expansion_count_c3_amended (sales : List RawSalesRow) :
    sales.length ≤ ((sales.map expandRow).flatten).length := by
  induction sales with
  | nil => simp
  | cons r rest ih =>
    have h1 : 0 < (expandRow r).length := by
      rw [expandRow, List.length_map]
      exact splitOnChar_length_pos ',' (replaceBar (cellStr r.sellerSkus))
    simp only [List.map_cons, List.flatten_cons, List.length_append, List.length_cons]
    omega

/-- C5: the average order value is the total completed revenue divided by
the number of distinct completed order identifiers, and is 0 when that
count is 0. -/
theorem aov_c5 (rows : List CanonRow) :
    (uniqueOrders rows = 0 → aov rows = 0) ∧
    (0 < uniqueOrders rows →
      aov rows * (uniqueOrders rows : ℚ) = completedRevenue rows) := by
  constructor
  · intro h
    simp [aov, h]
  · intro h
    have hne : (uniqueOrders rows : ℚ) ≠ 0 := Nat.cast_ne_zero.mpr (by omega)
    rw [aov, if_pos h, div_mul_cancel₀ _ hne]

/-- Witness for C5: the empty table has AOV 0; a one-row completed table
has AOV times order count equal to its revenue. -/
theorem aov_c5_witness :
    aov [] = 0 ∧
    aov [sampleCompleted] * (uniqueOrders [sampleCompleted] : ℚ) =
      completedRevenue [sampleCompleted] :=
  ⟨(aov_c5 []).1 rfl, (aov_c5 [sampleCompleted]).2 (by decide)⟩

/-- C9: a merged row is in the dead-stock view exactly when it has zero
units sold and strictly positive available stock. -/
theorem dead_stock_c9 (comp : List CanonRow) (inv : List (PyStr × Int)) (r : ReconRow) :
    r ∈ deadStock comp inv ↔ r ∈ reconTable comp inv ∧ r.sold = 0 ∧ 0 < r.atp := by
  simp [deadStock, List.mem_filter, and_assoc]

/-- A sample inventory table. -/
def invSample : List (PyStr × Int) := [(['a'], 5), (['b'], 3)]

/-- A completed canonical row with a missing price cell. -/
def sampleNoPrice : CanonRow :=
  { orderId := ['3'], finalSku := ['b'], statusU := ['S'],
    channel := some ['A'], createdAt := none, price := none }

/-- A raw row whose status cell is missing. -/
def sampleNoStatus : RawSalesRow :=
  { orderId := ['4'], sellerSkus := some ['a'], products := some ['p'],
    status := none, channel := some ['A'], createdAt := none, orderPrice := some 2 }

/-- A SKU absent from the grouped demand counts as zero demand. -/
theorem unitsSold_eq_zero_of_not_mem (rows : List CanonRow) (s : PyStr)
    (h : s ∉ skuKeys rows) : unitsSold rows s = 0 := by
  rw [unitsSold, List.countP_eq_zero]
  intro c hc
  simp only [decide_eq_true_eq]
  intro hcs
  exact h (List.mem_dedup.mpr (List.mem_map.mpr ⟨c, hc, hcs⟩))

/-- C4: every SKU of either side of the outer join appears in the merged
table with stockToOrder equal to max(0, unitsSold − available), the missing
side treated as zero, and stockToOrder is never negative on any merged
row. -/
theorem stock_to_order_c4 (comp : List CanonRow) (inv : List (PyStr × Int)) (s : PyStr)
    (hs : s ∈ skuKeys comp ∨ s ∈ inv.map Prod.fst) :
    (∃ r ∈ reconTable comp inv, r.sku = s ∧
      stockToOrder r = max 0 ((unitsSold comp s : Int) - lookupATP inv s)) ∧
    (∀ r ∈ reconTable comp inv, stockToOrder r = max 0 (r.sold - r.atp) ∧
      0 ≤ stockToOrder r) := by
  constructor
  · by_cases hmem : s ∈ skuKeys comp
    · refine ⟨⟨s, (unitsSold comp s : Int), lookupATP inv s⟩, ?_, rfl, rfl⟩
      apply List.mem_append_left
      exact List.mem_map.mpr ⟨s, hmem, rfl⟩
    · have hsi : s ∈ inv.map Prod.fst := hs.resolve_left hmem
      obtain ⟨p0, hp0mem, hp0s⟩ := List.mem_map.mp hsi
      cases hfind : inv.find? (fun p => decide (p.1 = s)) with
      | none =>
        exfalso
        have hnone := List.find?_eq_none.mp hfind p0 hp0mem
        simp [hp0s] at hnone
      | some q =>
        have hqs : q.1 = s := by simpa using List.find?_some hfind
        have hqmem : q ∈ inv := List.mem_of_find?_eq_some hfind
        refine ⟨⟨q.1, 0, q.2⟩, ?_, hqs, ?_⟩
        · apply List.mem_append_right
          apply List.mem_map.mpr
          refine ⟨q, List.mem_filter.mpr ⟨hqmem, ?_⟩, rfl⟩
          simp [hqs, hmem]
        · have hunits : unitsSold comp s = 0 := unitsSold_eq_zero_of_not_mem comp s hmem
          have hlook : lookupATP inv s = q.2 := by simp [lookupATP, hfind]
          rw [hunits, hlook]
          simp [stockToOrder]
  · intro r _
    exact ⟨rfl, le_max_left 0 _⟩

/-- Witness for C4 at a concrete demand/inventory pair. -/
theorem stock_to_order_c4_witness :
    ∃ r ∈ reconTable [sampleCompleted] invSample, r.sku = ['a'] ∧
      stockToOrder r =
        max 0 ((unitsSold [sampleCompleted] ['a'] : Int) - lookupATP invSample ['a']) :=
  (stock_to_order_c4 [sampleCompleted] invSample ['a'] (Or.inl (by decide))).1

/-- C6: a completed canonical row with an unparseable or missing price is
coerced to price 0: it is kept in the completed set, counts one unit toward
the units-sold KPI and its per-SKU group size, and contributes exactly 0 to
the net-revenue KPI and to its per-SKU revenue sum. -/
theorem price_coercion_c6 (c : CanonRow) (l1 l2 : List CanonRow)
    (hp : c.price = none) (hc : isCancelled c = false) :
    effPrice c = 0 ∧
    c ∈ completedRows (l1 ++ c :: l2) ∧
    completedUnits (l1 ++ c :: l2) = completedUnits (l1 ++ l2) + 1 ∧
    unitsSold (completedRows (l1 ++ c :: l2)) c.finalSku
      = unitsSold (completedRows (l1 ++ l2)) c.finalSku + 1 ∧
    completedRevenue (l1 ++ c :: l2) = completedRevenue (l1 ++ l2) ∧
    skuRevenue (completedRows (l1 ++ c :: l2)) c.finalSku
      = skuRevenue (completedRows (l1 ++ l2)) c.finalSku := by
  have hsplit : completedRows (l1 ++ c :: l2)
      = completedRows l1 ++ c :: completedRows l2 := by
    simp [completedRows, List.filter_append, List.filter_cons, hc]
  have hsplit2 : completedRows (l1 ++ l2) = completedRows l1 ++ completedRows l2 := by
    simp [completedRows, List.filter_append]
  refine ⟨by simp [effPrice, hp], ?_, ?_, ?_, ?_, ?_⟩
  · rw [hsplit]
    exact List.mem_append_right _ (List.mem_cons_self _ _)
  · rw [completedUnits, completedUnits, hsplit, hsplit2]
    simp
    omega
  · rw [unitsSold, unitsSold, hsplit, hsplit2]
    simp [List.countP_append, List.countP_cons]
    omega
  · rw [completedRevenue, completedRevenue, hsplit, hsplit2]
    simp [effPrice, hp]
  · rw [skuRevenue, skuRevenue, hsplit, hsplit2]
    simp [List.filter_append, List.filter_cons, effPrice, hp]

/-- Witness for C6 at a concrete row with a missing price. -/
theorem price_coercion_c6_witness :
    effPrice sampleNoPrice = 0 ∧
    sampleNoPrice ∈ completedRows ([] ++ sampleNoPrice :: [sampleCompleted]) :=
  ⟨(price_coercion_c6 sampleNoPrice [] [sampleCompleted] rfl (by decide)).1,
   (price_coercion_c6 sampleNoPrice [] [sampleCompleted] rfl (by decide)).2.1⟩

/-- C10: a raw row with a missing status cell is stringified to "nan",
uppercased to "NAN", which does not contain "CANCEL"; every canonical row
it produces is therefore classified Completed and counts toward the
completed unit and revenue totals instead of being dropped. -/
theorem missing_status_c10 (R : RawSalesRow) (hR : R.status = none) :
    (∀ c ∈ expandRow R, c.statusU = ['N', 'A', 'N'] ∧ isCancelled c = false) ∧
    (∀ (c : CanonRow) (l1 l2 : List CanonRow), c.statusU = ['N', 'A', 'N'] →
      isCancelled c = false ∧
      c ∈ completedRows (l1 ++ c :: l2) ∧
      completedUnits (l1 ++ c :: l2) = completedUnits (l1 ++ l2) + 1 ∧
      completedRevenue (l1 ++ c :: l2) = completedRevenue (l1 ++ l2) + effPrice c) := by
  constructor
  · intro c hcm
    obtain ⟨t, _, rfl⟩ := List.mem_map.mp hcm
    have hst : (mkCanon R t).statusU = ['N', 'A', 'N'] := by
      have h1 : (mkCanon R t).statusU = upperL (cellStr R.status) := rfl
      rw [h1, hR]
      decide
    refine ⟨hst, ?_⟩
    rw [isCancelled, hst]
    decide
  · intro c l1 l2 hst
    have hcf : isCancelled c = false := by
      rw [isCancelled, hst]
      decide
    have hsplit : completedRows (l1 ++ c :: l2)
        = completedRows l1 ++ c :: completedRows l2 := by
      simp [completedRows, List.filter_append, List.filter_cons, hcf]
    have hsplit2 : completedRows (l1 ++ l2) = completedRows l1 ++ completedRows l2 := by
      simp [completedRows, List.filter_append]
    refine ⟨hcf, ?_, ?_, ?_⟩
    · rw [hsplit]
      exact List.mem_append_right _ (List.mem_cons_self _ _)
    · rw [completedUnits, completedUnits, hsplit, hsplit2]
      simp
      omega
    · rw [completedRevenue, completedRevenue, hsplit, hsplit2]
      simp
      ring

/-- Witness for C10 at a concrete raw row with a missing status. -/
theorem missing_status_c10_witness :
    (mkCanon sampleNoStatus ['a']).statusU = ['N', 'A', 'N'] ∧
    isCancelled (mkCanon sampleNoStatus ['a']) = false :=
  (missing_status_c10 sampleNoStatus rfl).1 (mkCanon sampleNoStatus ['a']) (by decide)

/-- A completed canonical row with neither a parsed timestamp nor a
channel cell. -/
def noDateNoChannel : CanonRow :=
  { orderId := ['6'], finalSku := ['a'], statusU := ['S'],
    channel := none, createdAt := none, price := none }

/-- A completed canonical row with a channel but no parsed timestamp. -/
def sampleNoDate : CanonRow :=
  { orderId := ['7'], finalSku := ['a'], statusU := ['S'],
    channel := some ['B'], createdAt := none, price := some 1 }

/-- A cancelled canonical row whose channel cell is missing. -/
def cancelledNoChannel : CanonRow :=
  { orderId := ['5'], finalSku := ['a'], statusU := ['C','A','N','C','E','L'],
    channel := none, createdAt := none, price := none }

/-- C7 fails on the code: a row whose timestamp fails to parse is not
necessarily counted in channel-keyed aggregations — when its channel cell
is also missing, the channel groupby drops it, so the one-row table below
yields an empty channel aggregation. -/
theorem date_null_c7_counterexample :
    orderDate noDateNoChannel = none ∧
    isCancelled noDateNoChannel = false ∧
    ([noDateNoChannel] : List CanonRow).length = 1 ∧
    channelUnits [noDateNoChannel] = [] := by
  decide

/-- C7 amended: a row whose timestamp fails to parse has a null date and is
excluded from every date-keyed aggregation (daily units, daily revenue,
daily × channel matrix), while it is still counted in SKU-keyed
aggregations, and in channel-keyed aggregations provided its channel cell
is present. -/
theorem date_null_c7_amended (c : CanonRow) (l1 l2 : List CanonRow)
    (hd : c.createdAt = none) :
    orderDate c = none ∧
    dailyUnits (l1 ++ c :: l2) = dailyUnits (l1 ++ l2) ∧
    dailyRevenue (l1 ++ c :: l2) = dailyRevenue (l1 ++ l2) ∧
    dailyChannelMatrix (l1 ++ c :: l2) = dailyChannelMatrix (l1 ++ l2) ∧
    unitsSold (l1 ++ c :: l2) c.finalSku = unitsSold (l1 ++ l2) c.finalSku + 1 ∧
    (∀ ch, c.channel = some ch →
      channelCount (l1 ++ c :: l2) ch = channelCount (l1 ++ l2) ch + 1 ∧
      ch ∈ channelKeys (l1 ++ c :: l2)) := by
  have hod : orderDate c = none := by simp [orderDate, hd]
  have hkeys : dailyKeys (l1 ++ c :: l2) = dailyKeys (l1 ++ l2) := by
    simp [dailyKeys, List.filterMap_append, List.filterMap_cons, hod]
  have hdc : dcRows (l1 ++ c :: l2) = dcRows (l1 ++ l2) := by
    simp [dcRows, List.filter_append, List.filter_cons, hod]
  refine ⟨hod, ?_, ?_, ?_, ?_, ?_⟩
  · rw [dailyUnits, dailyUnits, hkeys]
    apply List.map_congr_left
    intro d _
    simp [List.countP_append, List.countP_cons, hod]
  · rw [dailyRevenue, dailyRevenue, hkeys]
    apply List.map_congr_left
    intro d _
    simp [List.filter_append, List.filter_cons, hod]
  · rw [dailyChannelMatrix, dailyChannelMatrix, hdc]
    apply List.map_congr_left
    intro d _
    refine congrArg (Prod.mk d) ?_
    apply List.map_congr_left
    intro ch _
    refine congrArg (Prod.mk ch) ?_
    simp [List.countP_append, List.countP_cons, hod]
  · simp [unitsSold, List.countP_append, List.countP_cons]
    omega
  · intro ch hch
    constructor
    · simp [channelCount, List.countP_append, List.countP_cons, hch]
      omega
    · refine List.mem_dedup.mpr (List.mem_filterMap.mpr ⟨c, ?_, by rw [hch]⟩)
      exact List.mem_append_right _ (List.mem_cons_self _ _)

/-- Witness for the amended C7 at a concrete no-timestamp row. -/
theorem date_null_c7_witness :
    orderDate sampleNoDate = none ∧
    dailyUnits ([] ++ sampleNoDate :: [sampleCompleted]) =
      dailyUnits ([] ++ [sampleCompleted]) ∧
    channelCount ([] ++ sampleNoDate :: [sampleCompleted]) ['B'] =
      channelCount ([] ++ [sampleCompleted]) ['B'] + 1 :=
  ⟨(date_null_c7_amended sampleNoDate [] [sampleCompleted] rfl).1,
   (date_null_c7_amended sampleNoDate [] [sampleCompleted] rfl).2.1,
   ((date_null_c7_amended sampleNoDate [] [sampleCompleted] rfl).2.2.2.2.2 ['B'] rfl).1⟩

/-- A map to constant zero sums to zero. -/
theorem sum_map_const_zero {α : Type} (l : List α) : (l.map (fun _ => (0 : Nat))).sum = 0 := by
  induction l with
  | nil => rfl
  | cons a t ih => simp [ih]

/-- Sums distribute over pointwise addition of mapped functions. -/
theorem sum_map_add_distrib {α : Type} (l : List α) (f g : α → Nat) :
    (l.map (fun x => f x + g x)).sum = (l.map f).sum + (l.map g).sum := by
  induction l with
  | nil => rfl
  | cons a t ih =>
    simp [ih]
    omega

/-- Over a duplicate-free list containing a, the indicator of a sums to its
single value. -/
theorem sum_map_indicator {α : Type} [DecidableEq α] (l : List α) (hl : l.Nodup)
    (a : α) (ha : a ∈ l) (k : Nat) :
    (l.map (fun b => if a = b then k else 0)).sum = k := by
  induction l with
  | nil => cases ha
  | cons h t ih =>
    rcases List.mem_cons.mp ha with he | hat
    · have hnotin : a ∉ t := by
        rw [he]
        exact (List.nodup_cons.mp hl).1
      have hz : (t.map (fun b => if a = b then k else 0)).sum = 0 := by
        apply List.sum_eq_zero
        intro x hx
        obtain ⟨b, hb, rfl⟩ := List.mem_map.mp hx
        have hab : a ≠ b := fun e => hnotin (by rw [e]; exact hb)
        exact if_neg hab
      simp only [List.map_cons, List.sum_cons, if_pos he, hz]
      omega
    · have hne : a ≠ h := by
        intro e
        apply (List.nodup_cons.mp hl).1
        rw [← e]
        exact hat
      simp only [List.map_cons, List.sum_cons, if_neg hne]
      rw [ih (List.nodup_cons.mp hl).2 hat]
      omega

/-- Double counting: summing the (finalSku, channel) incidence grid over
duplicate-free key lists covering every row counts each row exactly once. -/
theorem sum_grid (S C : List PyStr) (rows : List CanonRow)
    (hS : S.Nodup) (hC : C.Nodup)
    (hmem : ∀ c ∈ rows, c.finalSku ∈ S ∧ ∃ ch, c.channel = some ch ∧ ch ∈ C) :
    (S.map (fun s => (C.map (fun ch => rows.countP
      (fun c => decide (c.finalSku = s) && decide (c.channel = some ch)))).sum)).sum
      = rows.length := by
  induction rows with
  | nil =>
    simp only [List.countP_nil, List.length_nil]
    rw [List.map_congr_left (fun s _ => sum_map_const_zero C)]
    exact sum_map_const_zero S
  | cons r rows ih =>
    obtain ⟨hsR, ch0, hch0, hc0⟩ := hmem r (List.mem_cons_self r rows)
    have ihh := ih (fun c hc => hmem c (List.mem_cons_of_mem r hc))
    simp only [List.countP_cons, List.length_cons]
    have hsplitC : ∀ s ∈ S,
        (C.map (fun ch =>
          rows.countP (fun c => decide (c.finalSku = s) && decide (c.channel = some ch))
            + if (decide (r.finalSku = s) && decide (r.channel = some ch)) = true
              then 1 else 0)).sum
        = (C.map (fun ch =>
            rows.countP (fun c => decide (c.finalSku = s) && decide (c.channel = some ch)))).sum
          + (C.map (fun ch =>
              if (decide (r.finalSku = s) && decide (r.channel = some ch)) = true
              then 1 else 0)).sum :=
      fun s _ => sum_map_add_distrib C _ _
    rw [List.map_congr_left hsplitC, sum_map_add_distrib S, ihh]
    have hB : ∀ s ∈ S,
        (C.map (fun ch =>
          if (decide (r.finalSku = s) && decide (r.channel = some ch)) = true
          then 1 else 0)).sum
        = if r.finalSku = s then 1 else 0 := by
      intro s _
      by_cases hse : r.finalSku = s
      · rw [List.map_congr_left (g := fun ch => if ch0 = ch then 1 else 0)
          (fun ch _ => by simp [hse, hch0])]
        rw [sum_map_indicator C hC ch0 hc0 1, if_pos hse]
      · rw [List.map_congr_left (g := fun _ => 0) (fun ch _ => by simp [hse]),
          sum_map_const_zero, if_neg hse]
    rw [List.map_congr_left hB, sum_map_indicator S hS r.finalSku hsR 1]

/-- Restricting the count of a channel-specific predicate to rows with a
present channel changes nothing. -/
theorem countP_filter_isSome (l : List CanonRow) (s ch : PyStr) :
    (l.filter (fun c => c.channel.isSome)).countP
      (fun c => decide (c.finalSku = s) && decide (c.channel = some ch))
    = l.countP (fun c => decide (c.finalSku = s) && decide (c.channel = some ch)) := by
  induction l with
  | nil => rfl
  | cons c t ih =>
    by_cases h : c.channel.isSome
    · simp [List.filter_cons, h, List.countP_cons, ih]
    · have hnone : c.channel = none := by
        cases hc : c.channel
        · rfl
        · exact absurd (by simp [hc]) h
      simp [List.filter_cons, h, List.countP_cons, hnone, ih]

/-- C8 fails on the code: a cancelled row with a missing channel cell is
dropped by the pivot grouping, so the cell sum of the cancellation matrix
undercounts the cancelled rows. -/
theorem cancel_pivot_c8_counterexample :
    ¬ (cancelPivotSum [cancelledNoChannel]
        = (cancelledRows [cancelledNoChannel]).length) := by
  decide

/-- C8 amended: the sum over all cells of the cancellation cross-tabulation
equals the number of cancelled canonical rows whose channel cell is present
(hence equals the total cancelled count exactly when every cancelled row
carries a channel). -/
theorem cancel_pivot_c8_amended (rows : List CanonRow) :
    cancelPivotSum rows = (pivotRows rows).length := by
  have hcells : ∀ s ∈ cancelSkuKeys rows,
      ((cancelChKeys rows).map (fun ch => cancelPivotCell rows s ch)).sum
      = ((cancelChKeys rows).map (fun ch => (pivotRows rows).countP
          (fun c => decide (c.finalSku = s) && decide (c.channel = some ch)))).sum := by
    intro s _
    congr 1
    apply List.map_congr_left
    intro ch _
    rw [cancelPivotCell, pivotRows]
    exact (countP_filter_isSome (cancelledRows rows) s ch).symm
  rw [cancelPivotSum, List.map_congr_left hcells]
  apply sum_grid
  · exact List.nodup_dedup _
  · exact List.nodup_dedup _
  · intro c hc
    refine ⟨List.mem_dedup.mpr (List.mem_map.mpr ⟨c, hc, rfl⟩), ?_⟩
    have hsome : c.channel.isSome := by simpa using (List.mem_filter.mp hc).2
    obtain ⟨ch, hch⟩ := Option.isSome_iff_exists.mp hsome
    exact ⟨ch, hch, List.mem_dedup.mpr (List.mem_filterMap.mpr ⟨c, hc, by rw [hch]⟩)⟩

end Chadorkart
